import Mathlib

/-!
Verification of the log-investigation pipeline (normalizer, validator,
fingerprint engine, store/ingest, group index, spike detector).

The Lean definitions below are a shallow embedding of the Python sources
under `app/`:

* `app/normalize.py`   — `normalize`, `_find_value`, `_coerce_timestamp`,
  `_coerce_level`, `_coerce_string`, alias sets;
* `app/fingerprint.py` — `_normalize_message_for_fingerprint`,
  `compute_fingerprint`;
* `app/validate.py`    — `validate_log`;
* `app/ingest.py`      — `process_logs`;
* `app/group.py`       — `get_groups`;
* `app/spikes.py`      — `get_spikes`;
* `app/config.py`      — validation settings.

Machine integers do not occur (Python ints are unbounded); timestamps are
modelled as integers (for database rows, whose ISO-8601 strings compare
lexicographically exactly as instants) or rationals (for coerced epoch
values), and Python floats are modelled as rationals.  Fallible code
returns `Except`/`Option`.
-/

namespace LogInvestigation

/-! ### Python-level primitives -/

/-- The scalar values a raw JSON log event may carry in this model:
strings, (unbounded) integers, and `None`/`null`. -/
inductive Value where
  | vStr (s : String)
  | vInt (n : Int)
  | vNone
deriving Repr, DecidableEq

/-- A raw event: a Python `dict` in insertion order (keys unique in real
dicts; none of the definitions below requires uniqueness). -/
abbrev RawEvent := List (String × Value)

/-- Python `str()` applied to a scalar value. -/
def pyStr : Value → String
  | .vStr s => s
  | .vInt n => toString n
  | .vNone => "None"

/-- Python truthiness of a scalar (an absent value counts as falsy, which
is how `dict.get` defaults surface in `or` chains). -/
def truthy : Option Value → Bool
  | none => false
  | some .vNone => false
  | some (.vStr s) => s ≠ ""
  | some (.vInt n) => n ≠ 0

/-- The whitespace class of Python `str.strip` / `\s` (ASCII fragment). -/
def isPySpace (c : Char) : Bool :=
  c = ' ' || c = '\t' || c = '\n' || c = '\r' || c = '\x0b' || c = '\x0c'

/-- Python `str.strip()` on the character list. -/
def stripChars (l : List Char) : List Char :=
  ((l.dropWhile isPySpace).reverse.dropWhile isPySpace).reverse

/-- Python `str.strip()`. -/
def stripPy (s : String) : String := ⟨stripChars s.toList⟩

/-- Python `str.upper()` (ASCII fragment, characterwise). -/
def toUpperPy (s : String) : String := ⟨s.data.map Char.toUpper⟩

/-- Python `str.lower()` (ASCII fragment, characterwise). -/
def toLowerPy (s : String) : String := ⟨s.data.map Char.toLower⟩

/-- UTF-8 byte width of one character (model of `len(ch.encode("utf-8"))`). -/
def charUtf8Size (c : Char) : Nat :=
  if c.toNat < 0x80 then 1
  else if c.toNat < 0x800 then 2
  else if c.toNat < 0x10000 then 3
  else 4

/-- `len(s.encode("utf-8"))`. -/
def utf8Len (s : String) : Nat := (s.toList.map charUtf8Size).sum

/-! ### Fingerprint engine (`app/fingerprint.py`)

The three `re.sub` passes are embedded as left-to-right scanners over the
character list, reproducing the regex engine's leftmost, non-overlapping
replacement discipline.  `\b` is tracked through a "previous character is
a word character" flag.  Each scanner consumes at least one input
character per step, so running it with fuel `length + 1` never exhausts
the fuel; the fuel-out branch is unreachable. -/

/-- `\w` (ASCII fragment, as in the messages at hand). -/
def isWordChar (c : Char) : Bool := c.isAlphanum || c = '_'

/-- `[0-9a-fA-F]`. -/
def isHexDigit (c : Char) : Bool :=
  c.isDigit || ('a' ≤ c && c ≤ 'f') || ('A' ≤ c && c ≤ 'F')

/-- Does the word-boundary `\b` hold between a word character and the
start of `l`? (Holds at end of input or before a non-word character.) -/
def boundaryBefore : List Char → Bool
  | [] => true
  | c :: _ => !isWordChar c

/-- Does `l` start with a full 8-4-4-4-12 UUID shape
(`[0-9a-fA-F]{8}-…{4}-…{4}-…{4}-…{12}`)? -/
def isUuidPrefix (l : List Char) : Bool :=
  let t := l.take 36
  t.length = 36 &&
    t.enum.all fun p =>
      if p.1 = 8 || p.1 = 13 || p.1 = 18 || p.1 = 23 then p.2 = '-'
      else isHexDigit p.2

/-- First `re.sub` pass: every UUID-shaped substring becomes `<uuid>`
(the pattern carries no `\b`, so matches may start anywhere). -/
def subUuid : Nat → List Char → List Char
  | 0, l => l
  | _ + 1, [] => []
  | fuel + 1, c :: cs =>
    if isUuidPrefix (c :: cs) then
      '<' :: 'u' :: 'u' :: 'i' :: 'd' :: '>' :: subUuid fuel ((c :: cs).drop 36)
    else
      c :: subUuid fuel cs

/-- Second pass: `\b0x[0-9a-fA-F]+\b` becomes `<hex>`.  The flag records
whether the previously scanned character was a word character (initially
false: start of string is a boundary). -/
def subHex : Nat → Bool → List Char → List Char
  | 0, _, l => l
  | _ + 1, _, [] => []
  | fuel + 1, prevW, c :: cs =>
    if !prevW && c = '0' then
      match cs with
      | 'x' :: rest =>
        let run := rest.takeWhile isHexDigit
        if run.length > 0 && boundaryBefore (rest.drop run.length) then
          '<' :: 'h' :: 'e' :: 'x' :: '>' :: subHex fuel true (rest.drop run.length)
        else
          c :: subHex fuel true cs
      | _ => c :: subHex fuel true cs
    else
      c :: subHex fuel (isWordChar c) cs

/-- Third pass: `\b\d+\b` becomes `<n>`. -/
def subNum : Nat → Bool → List Char → List Char
  | 0, _, l => l
  | _ + 1, _, [] => []
  | fuel + 1, prevW, c :: cs =>
    if !prevW && c.isDigit then
      let run := cs.takeWhile Char.isDigit
      if boundaryBefore (cs.drop run.length) then
        '<' :: 'n' :: '>' :: subNum fuel true (cs.drop run.length)
      else
        c :: subNum fuel true cs
    else
      c :: subNum fuel (isWordChar c) cs

/-- Fourth pass: `:\s*<n>` becomes `:<n>` (collapses whitespace between a
colon and a numeric placeholder). -/
def subColon : Nat → List Char → List Char
  | 0, l => l
  | _ + 1, [] => []
  | fuel + 1, c :: cs =>
    if c = ':' then
      let ws := cs.takeWhile isPySpace
      let after := cs.drop ws.length
      if after.take 3 = ['<', 'n', '>'] then
        ':' :: '<' :: 'n' :: '>' :: subColon fuel (after.drop 3)
      else
        c :: subColon fuel cs
    else
      c :: subColon fuel cs

/-- `_normalize_message_for_fingerprint` from `app/fingerprint.py`:
template a message by replacing UUIDs, `0x…` hex literals and standalone
integers with placeholders, collapsing `:<ws><n>`, then stripping. -/
def normalizeMessageForFingerprint (message : String) : String :=
  if message = "" then ""
  else
    let l0 := message.toList
    let l1 := subUuid (l0.length + 1) l0
    let l2 := subHex (l1.length + 1) false l1
    let l3 := subNum (l2.length + 1) false l2
    let l4 := subColon (l3.length + 1) l3
    ⟨stripChars l4⟩

/-- Canonical log entry (`CanonicalLog` in `app/schema.py`).  The
timestamp is the epoch instant as a rational. -/
structure CanonicalLog where
  timestamp : ℚ
  level : String
  message : String
  service : String
  correlation_id : String
  metadata : List (String × Value)
  raw : String
deriving Repr, DecidableEq

/-! ### Normalizer (`app/normalize.py`) -/

/-- Alias sets from `app/normalize.py` (Python `set`s; the iteration
order is unspecified there, so the source order is used — no claim
depends on the order). -/
def LEVEL_ALIASES : List String :=
  ["lvl", "level", "severity", "log_level", "severityLevel", "logLevel", "severity_level"]

def MESSAGE_ALIASES : List String := ["msg", "message", "text", "log", "description"]

def SERVICE_ALIASES : List String :=
  ["service", "service_name", "app", "application", "source", "logger"]

def CORRELATION_ALIASES : List String :=
  ["correlation_id", "correlationId", "request_id", "trace_id", "traceId", "requestId"]

def TIMESTAMP_ALIASES : List String :=
  ["timestamp", "time", "ts", "@timestamp", "datetime", "date"]

/-- Case-insensitive lookup of one key: the Python code builds
`{k.lower(): v}` over the items, so for lowercase-equal keys the last
entry wins. -/
def lookupLower (data : RawEvent) (key : String) : Option Value :=
  ((data.filter fun kv => toLowerPy kv.1 = toLowerPy key).getLast?).map Prod.snd

/-- `_find_value`: first alias (in order) present in the event,
case-insensitively. -/
def find_value (data : RawEvent) : List String → Option Value
  | [] => none
  | k :: ks =>
    match lookupLower data k with
    | some v => some v
    | none => find_value data ks

/-- Decimal digits to a number. -/
def digitsToNat (l : List Char) : Nat := l.foldl (fun a c => a * 10 + (c.toNat - 48)) 0

/-- Exactly `n` decimal digits. -/
def parseFixedDigits (l : List Char) (n : Nat) : Option (Nat × List Char) :=
  let ds := l.take n
  if ds.length = n && ds.all Char.isDigit then some (digitsToNat ds, l.drop n) else none

/-- Length of a Gregorian month. -/
def daysInMonth (y m : Nat) : Nat :=
  if m = 2 then (if (y % 4 = 0 && y % 100 ≠ 0) || y % 400 = 0 then 29 else 28)
  else if m = 4 || m = 6 || m = 9 || m = 11 then 30 else 31

/-- Days since 1970-01-01 of a civil date (valid for year ≥ 1, so all
divisions run on non-negative operands). -/
def daysFromCivil (y m d : Nat) : Int :=
  let y' : Int := if m ≤ 2 then (y : Int) - 1 else (y : Int)
  let era : Int := y' / 400
  let yoe : Int := y' - era * 400
  let mp : Int := ((m : Int) + 9) % 12
  let doy : Int := (153 * mp + 2) / 5 + (d : Int) - 1
  let doe : Int := yoe * 365 + yoe / 4 - yoe / 100 + doy
  era * 146097 + doe - 719468

/-- Nonempty digit run. -/
def parseNonemptyDigits (l : List Char) : Option (Nat × List Char) :=
  let ds := l.takeWhile Char.isDigit
  if ds.length = 0 then none else some (digitsToNat ds, l.drop ds.length)

/-- Time of day `HH[:MM[:SS[.ffffff]]]` as seconds. -/
def parseTimeOfDay (l : List Char) : Option (ℚ × List Char) :=
  (parseFixedDigits l 2).bind fun p =>
    let h := p.1
    if 24 ≤ h then none else
    match p.2 with
    | ':' :: r2 =>
      (parseFixedDigits r2 2).bind fun q =>
        let mi := q.1
        if 60 ≤ mi then none else
        match q.2 with
        | ':' :: r4 =>
          (parseFixedDigits r4 2).bind fun w =>
            let s := w.1
            if 60 ≤ s then none else
            match w.2 with
            | '.' :: r6 =>
              let fd := r6.takeWhile Char.isDigit
              if fd.length = 0 || 6 < fd.length then none
              else some (((h * 3600 + mi * 60 + s : Nat) : ℚ)
                + (digitsToNat fd : ℚ) / ((10 : ℚ) ^ fd.length), r6.drop fd.length)
            | r5 => some (((h * 3600 + mi * 60 + s : Nat) : ℚ), r5)
        | r3 => some (((h * 3600 + mi * 60 : Nat) : ℚ), r3)
    | r1 => some (((h * 3600 : Nat) : ℚ), r1)

/-- UTC offset `±HH:MM` as signed seconds. -/
def parseOffsetTail (sgn : Int) (l : List Char) : Option (ℚ × List Char) :=
  (parseFixedDigits l 2).bind fun p =>
    match p.2 with
    | ':' :: r2 =>
      (parseFixedDigits r2 2).bind fun q =>
        some (((sgn : ℚ)) * ((p.1 * 3600 + q.1 * 60 : Nat) : ℚ), q.2)
    | _ => none

/-- Model of `datetime.fromisoformat` on the standard
`YYYY-MM-DD[<sep>HH[:MM[:SS[.ffffff]]][±HH:MM]]` forms, yielding the
epoch instant (no claim depends on its inner details: every failure in
this path is swallowed in `_coerce_timestamp`). -/
def parsePyIso (s : String) : Option ℚ :=
  (parseFixedDigits s.toList 4).bind fun py =>
    let y := py.1
    if y = 0 then none else
    match py.2 with
    | '-' :: r2 =>
      (parseFixedDigits r2 2).bind fun pm =>
        let mo := pm.1
        if mo = 0 || 12 < mo then none else
        match pm.2 with
        | '-' :: r4 =>
          (parseFixedDigits r4 2).bind fun pd =>
            let d := pd.1
            if d = 0 || daysInMonth y mo < d then none else
            let dayEpoch : ℚ := ((daysFromCivil y mo d * 86400 : Int) : ℚ)
            match pd.2 with
            | [] => some dayEpoch
            | _ :: r6 =>
              (parseTimeOfDay r6).bind fun pt =>
                match pt.2 with
                | [] => some (dayEpoch + pt.1)
                | '+' :: r7 =>
                  (parseOffsetTail 1 r7).bind fun po =>
                    if po.2 = [] then some (dayEpoch + pt.1 - po.1) else none
                | '-' :: r7 =>
                  (parseOffsetTail (-1) r7).bind fun po =>
                    if po.2 = [] then some (dayEpoch + pt.1 - po.1) else none
                | _ => none
        | _ => none
    | _ => none

/-- Scale by a signed power of ten. -/
def scalePow10 (v : ℚ) (e : Int) : ℚ :=
  if 0 ≤ e then v * (10 : ℚ) ^ e.toNat else v / (10 : ℚ) ^ (-e).toNat

/-- Model of Python `float(str)` on the common decimal forms
(`[±]digits[.digits][e[±]digits]`; failures on other forms are swallowed
by the caller just like a Python `ValueError`). -/
def parsePyFloat (s : String) : Option ℚ :=
  let l := stripChars s.toList
  let sl : ℚ × List Char :=
    match l with
    | '+' :: r => (1, r)
    | '-' :: r => (-1, r)
    | _ => (1, l)
  let ip := sl.2.takeWhile Char.isDigit
  let r1 := sl.2.drop ip.length
  let core : Option (ℚ × List Char) :=
    match r1 with
    | '.' :: r2 =>
      let fp := r2.takeWhile Char.isDigit
      if ip.length = 0 && fp.length = 0 then none
      else some ((digitsToNat ip : ℚ) + (digitsToNat fp : ℚ) / ((10 : ℚ) ^ fp.length),
        r2.drop fp.length)
    | _ => if ip.length = 0 then none else some ((digitsToNat ip : ℚ), r1)
  core.bind fun vc =>
    match vc.2 with
    | [] => some (sl.1 * vc.1)
    | 'e' :: r3 =>
      (match r3 with
        | '+' :: r4 => (parseNonemptyDigits r4).bind fun pe =>
            if pe.2 = [] then some (scalePow10 (sl.1 * vc.1) pe.1) else none
        | '-' :: r4 => (parseNonemptyDigits r4).bind fun pe =>
            if pe.2 = [] then some (scalePow10 (sl.1 * vc.1) (-(pe.1 : Int))) else none
        | _ => (parseNonemptyDigits r3).bind fun pe =>
            if pe.2 = [] then some (scalePow10 (sl.1 * vc.1) pe.1) else none)
    | 'E' :: r3 =>
      (match r3 with
        | '+' :: r4 => (parseNonemptyDigits r4).bind fun pe =>
            if pe.2 = [] then some (scalePow10 (sl.1 * vc.1) pe.1) else none
        | '-' :: r4 => (parseNonemptyDigits r4).bind fun pe =>
            if pe.2 = [] then some (scalePow10 (sl.1 * vc.1) (-(pe.1 : Int))) else none
        | _ => (parseNonemptyDigits r3).bind fun pe =>
            if pe.2 = [] then some (scalePow10 (sl.1 * vc.1) pe.1) else none)
    | _ => none

/-- Least epoch value `datetime.utcfromtimestamp` accepts (0001-01-01). -/
def PY_TS_MIN : Int := -62135596800

/-- Exclusive upper bound on epoch values `datetime.utcfromtimestamp`
accepts (the last instant of year 9999). -/
def PY_TS_MAX : Int := 253402300800

/-- Does `datetime.utcfromtimestamp` accept this epoch value (raising
`ValueError`/`OverflowError` outside the representable year range)? -/
def utcfromtimestampOk (x : ℚ) : Bool :=
  decide ((PY_TS_MIN : ℚ) ≤ x) && decide (x < (PY_TS_MAX : ℚ))

/-- Numeric branch of `_coerce_timestamp`: values above `1e12` are
epoch-milliseconds (divided by 1000), others epoch-seconds. -/
def epochSecondsOfNum (n : Int) : ℚ :=
  if (10 ^ 12 : ℚ) < (n : ℚ) then (n : ℚ) / 1000 else (n : ℚ)

/-- `_coerce_timestamp` from `app/normalize.py`.  `now` is the ingestion
instant (`datetime.utcnow()`).  The numeric branch calls
`datetime.utcfromtimestamp` outside any `try`, so an out-of-range value
raises (modelled as `.error`); both string-parsing attempts sit inside
`try/except`, so the string branch is total. -/
def coerce_timestamp (now : ℚ) : Option Value → Except String ℚ
  | none => .ok now
  | some .vNone => .ok now
  | some (.vInt n) =>
    let secs := epochSecondsOfNum n
    if utcfromtimestampOk secs then .ok secs else .error "year out of range"
  | some (.vStr s) =>
    match parsePyIso (s.replace "Z" "+00:00") with
    | some t => .ok t
    | none =>
      match parsePyFloat s with
      | some x => if utcfromtimestampOk x then .ok x else .ok now
      | none => .ok now

/-- `_coerce_level`: uppercased, trimmed; `None`/empty → `"INFO"`. -/
def coerce_level : Option Value → String
  | none => "INFO"
  | some .vNone => "INFO"
  | some v =>
    let s := toUpperPy (stripPy (pyStr v))
    if s = "" then "INFO" else s

/-- `_coerce_string`: trimmed string coercion; `None` → `""`. -/
def coerce_string : Option Value → String
  | none => ""
  | some .vNone => ""
  | some v => stripPy (pyStr v)

/-- Python `x or default` for strings. -/
def orDefault (s default : String) : String := if s = "" then default else s

/-- All alias keys, lowercased (the `known` set built in `normalize`). -/
def allAliasKeysLower : List String :=
  (LEVEL_ALIASES ++ MESSAGE_ALIASES ++ SERVICE_ALIASES ++ CORRELATION_ALIASES
    ++ TIMESTAMP_ALIASES).map toLowerPy

/-- Is this raw-event key consumed by some alias set (case-insensitive)? -/
def isAliasKey (k : String) : Bool := allAliasKeysLower.contains (toLowerPy k)

/-- The `metadata` loop of `normalize`: keep keys not consumed by any
alias set whose value is not `None`, in insertion order, values
untouched. -/
def metadataOf (raw : RawEvent) : List (String × Value) :=
  raw.filter fun kv => !isAliasKey kv.1 && !(kv.2 == Value.vNone)

/-- Python `repr` of a scalar (string escaping elided — no claim splits
this text apart). -/
def pyReprValue : Value → String
  | .vStr s => "\x27" ++ s ++ "\x27"
  | .vInt n => toString n
  | .vNone => "None"

/-- Python `str(raw)` for the original dict. -/
def pyReprDict (raw : RawEvent) : String :=
  "\x7b" ++ String.intercalate ", "
    (raw.map fun kv => "\x27" ++ kv.1 ++ "\x27: " ++ pyReprValue kv.2) ++ "\x7d"

/-- `normalize` from `app/normalize.py`: resolve aliases, coerce fields,
collect leftover metadata.  Returns `.error` exactly when
`_coerce_timestamp` raises. -/
def normalize (now : ℚ) (raw : RawEvent) : Except String CanonicalLog :=
  match coerce_timestamp now (find_value raw TIMESTAMP_ALIASES) with
  | .error e => .error e
  | .ok t =>
    .ok {
      timestamp := t
      level := coerce_level (find_value raw LEVEL_ALIASES)
      message := orDefault (coerce_string (find_value raw MESSAGE_ALIASES)) "(no message)"
      service := orDefault (coerce_string (find_value raw SERVICE_ALIASES)) "unknown"
      correlation_id := orDefault (coerce_string (find_value raw CORRELATION_ALIASES)) ""
      metadata := metadataOf raw
      raw := if raw.isEmpty then "" else pyReprDict raw }

/-- Python `"|".join(parts)`. -/
def joinBar : List String → String
  | [] => ""
  | [p] => p
  | p :: ps => p ++ "|" ++ joinBar ps

/-- `compute_fingerprint` from `app/fingerprint.py`: join the service,
level and templated message with `|`, dropping empty (falsy) parts. -/
def compute_fingerprint (log : CanonicalLog) : String :=
  joinBar (([log.service, log.level,
    normalizeMessageForFingerprint log.message]).filter (fun p => p ≠ ""))

/-! ### Validator (`app/validate.py`, `app/config.py`) -/

/-- `Settings.allowed_levels` from `app/config.py`. -/
def allowed_levels : List String := ["DEBUG", "INFO", "WARNING", "ERROR", "CRITICAL"]

/-- `Settings.max_log_size_bytes` default from `app/config.py`. -/
def max_log_size_bytes : Nat := 50000

/-- The level-whitelist violation message (the allowed-levels tuple is
interpolated verbatim). -/
def invalidLevelError (level : String) : String :=
  "Invalid level: " ++ level ++
    ". Allowed: (\x27DEBUG\x27, \x27INFO\x27, \x27WARNING\x27, \x27ERROR\x27, \x27CRITICAL\x27)"

/-- The payload-size violation message. -/
def payloadTooLargeError (size : Nat) : String :=
  "Log payload too large: " ++ toString size ++ " > " ++ toString max_log_size_bytes

/-- Payload size of a canonical log:
`len((log.raw or "").encode("utf-8")) + len(log.message.encode("utf-8"))`
(`raw or ""` only renames the empty string, so it is byte-neutral). -/
def canonicalPayloadSize (c : CanonicalLog) : Nat := utf8Len c.raw + utf8Len c.message

/-- `dict.get` (exact, case-sensitive key). -/
def dictGet (d : RawEvent) (k : String) : Option Value :=
  (d.find? fun kv => kv.1 = k).map Prod.snd

/-- A Python `a or b or c` chain over optional scalars: first truthy
value, if any. -/
def firstTruthy : List (Option Value) → Option Value
  | [] => none
  | o :: rest => if truthy o then o else firstTruthy rest

/-- Level extraction in the dict branch of `validate_log`:
`(log.get("level") or log.get("lvl") or log.get("severity") or "INFO")`,
then `str(level).upper()` when the value has an `upper` attribute (a
string), else `"INFO"`. -/
def dictLevel (d : RawEvent) : String :=
  match firstTruthy [dictGet d "level", dictGet d "lvl", dictGet d "severity"] with
  | some (.vStr s) => toUpperPy s
  | some _ => "INFO"
  | none => "INFO"

/-- Message extraction in the dict branch:
`str(log.get("message") or log.get("msg") or log.get("text") or "")`. -/
def dictMessage (d : RawEvent) : String :=
  match firstTruthy [dictGet d "message", dictGet d "msg", dictGet d "text"] with
  | some v => pyStr v
  | none => ""

/-- UTF-8 byte cost of one character inside a `json.dumps` string
(default `ensure_ascii=True`: short escapes for the common controls,
`\uXXXX` otherwise, surrogate pairs beyond the BMP). -/
def jsonCharSize (c : Char) : Nat :=
  if c = '"' || c = '\\' then 2
  else if c = '\x08' || c = '\t' || c = '\n' || c = '\x0c' || c = '\r' then 2
  else if c.toNat < 32 then 6
  else if c.toNat < 128 then 1
  else if c.toNat ≤ 0xFFFF then 6
  else 12

/-- Byte length of a JSON string literal. -/
def jsonStringSize (s : String) : Nat := 2 + (s.toList.map jsonCharSize).sum

/-- Byte length of a JSON scalar. -/
def jsonValueSize : Value → Nat
  | .vStr s => jsonStringSize s
  | .vInt n => (toString n).length
  | .vNone => 4

/-- `len(json.dumps(log).encode("utf-8"))` for a dict (separators
`", "` and `": "`). -/
def jsonDumpsSize (d : RawEvent) : Nat :=
  2 + (d.map fun kv => jsonStringSize kv.1 + 2 + jsonValueSize kv.2).sum +
    (if d.length ≤ 1 then 0 else 2 * (d.length - 1))

/-- The runtime type of a `validate_log` argument. -/
inductive LogInput where
  | canonical (c : CanonicalLog)
  | dict (d : RawEvent)
  | other
deriving Repr

/-- `validate_log` from `app/validate.py`: returns
`(valid, error messages)`, accumulating level, size and (for
`CanonicalLog` inputs only) empty-message violations in that order. -/
def validate_log : LogInput → Bool × List String
  | .other => (false, ["Log must be a dict or CanonicalLog"])
  | .canonical c =>
    let errors :=
      (if c.level ∈ allowed_levels then [] else [invalidLevelError c.level]) ++
      (if max_log_size_bytes < canonicalPayloadSize c
        then [payloadTooLargeError (canonicalPayloadSize c)] else []) ++
      (if c.message = "" then ["Message is required"] else [])
    (errors.isEmpty, errors)
  | .dict d =>
    let errors :=
      (if dictLevel d ∈ allowed_levels then [] else [invalidLevelError (dictLevel d)]) ++
      (if max_log_size_bytes < jsonDumpsSize d
        then [payloadTooLargeError (jsonDumpsSize d)] else [])
    (errors.isEmpty, errors)

/-! ### Ingestion (`app/ingest.py`)

`process_logs` iterates the batch; each item is rejected as a non-object,
a normalization failure, a validation failure, or a storage failure, or
accepted and committed individually.  The storage medium is modelled as
an oracle `storeFail` giving, per successive `store_log` attempt, `none`
for success or `some msg` for a raised exception. -/

/-- One entry of the posted batch: either not a JSON object, or a raw
event dict. -/
inductive BatchItem where
  | notObj
  | obj (raw : RawEvent)
deriving Repr

/-- The rejection message for non-object entries. -/
def NOT_OBJECT_ERROR : String := "Each log must be a JSON object"

/-- The loop body of `process_logs`, starting at batch index `i` with
`a` storage attempts already made.  Returns
`(accepted, rejected, errors)` with errors as `(index, reason)`. -/
def processAux (now : ℚ) (storeFail : Nat → Option String) :
    Nat → Nat → List BatchItem → Nat × Nat × List (Nat × String)
  | _, _, [] => (0, 0, [])
  | i, a, .notObj :: rest =>
    let r := processAux now storeFail (i + 1) a rest
    (r.1, r.2.1 + 1, (i, NOT_OBJECT_ERROR) :: r.2.2)
  | i, a, .obj raw :: rest =>
    match normalize now raw with
    | .error e =>
      let r := processAux now storeFail (i + 1) a rest
      (r.1, r.2.1 + 1, (i, "Normalization failed: " ++ e) :: r.2.2)
    | .ok canonical =>
      let v := validate_log (.canonical canonical)
      if v.1 then
        match storeFail a with
        | none =>
          let r := processAux now storeFail (i + 1) (a + 1) rest
          (r.1 + 1, r.2.1, r.2.2)
        | some e =>
          let r := processAux now storeFail (i + 1) (a + 1) rest
          (r.1, r.2.1 + 1, (i, "Storage failed: " ++ e) :: r.2.2)
      else
        let r := processAux now storeFail (i + 1) a rest
        (r.1, r.2.1 + 1, (i, String.intercalate "; " v.2) :: r.2.2)

/-- `process_logs`: returns `(accepted, rejected, errors)`. -/
def process_logs (now : ℚ) (storeFail : Nat → Option String)
    (batch : List BatchItem) : Nat × Nat × List (Nat × String) :=
  processAux now storeFail 0 0 batch

/-- The lifetime rejection counter after a batch: `process_logs` calls
`add_rejected_count(rejected)` exactly when `rejected > 0` (`app/db.py`
adds the given count atomically). -/
def rejectedCounterAfter (counter : Nat) (now : ℚ) (storeFail : Nat → Option String)
    (batch : List BatchItem) : Nat :=
  let r := process_logs now storeFail batch
  if 0 < r.2.1 then counter + r.2.1 else counter

/-! ### Stored rows, group index and spike detector
(`app/db.py`, `app/group.py`, `app/spikes.py`)

A stored row carries the canonical fields plus the fingerprint and
group id assigned at write time.  Timestamps are stored as ISO-8601
strings whose lexicographic order coincides with chronological order;
they are modelled as integers (epoch seconds). -/

/-- One row of the `logs` table. -/
structure LogRow where
  timestamp : Int
  level : String
  message : String
  service : String
  group_id : String
  fingerprint : String
deriving Repr, DecidableEq

/-- Is an optional text filter active?  (Python `if service:` — `None`
and the empty string both deactivate the filter.) -/
def filterActive : Option String → Bool
  | none => false
  | some s => s ≠ ""

/-- The `service`/`level` WHERE conditions shared by `get_groups` and
`get_spikes`. -/
def svcLvlMatch (svc lvl : Option String) (r : LogRow) : Bool :=
  (if filterActive svc then r.service = svc.getD "" else true) &&
  (if filterActive lvl then r.level = lvl.getD "" else true)

/-- Full row filter of `get_groups` (optional inclusive `since` bound). -/
def rowMatches (svc lvl : Option String) (since : Option Int) (r : LogRow) : Bool :=
  svcLvlMatch svc lvl r &&
  (match since with
   | some t => t ≤ r.timestamp
   | none => true)

/-- Descending insertion by a rational key (models `ORDER BY … DESC`). -/
def insertDescBy (key : α → ℚ) (x : α) : List α → List α
  | [] => [x]
  | y :: ys => if key y < key x then x :: y :: ys else y :: insertDescBy key x ys

/-- Descending sort by a rational key. -/
def sortDescBy (key : α → ℚ) : List α → List α
  | [] => []
  | x :: xs => insertDescBy key x (sortDescBy key xs)

/-- `GroupItem` from `app/schema.py` (timestamps as instants). -/
structure GroupItem where
  group_id : String
  fingerprint : String
  count : Nat
  level : String
  service : String
  sample_message : String
  first_seen : Int
  last_seen : Int
deriving Repr, DecidableEq

/-- Minimum of a timestamp list (`MIN(timestamp)`; the `[]` case never
arises: groups come from at least one matching row). -/
def minTs : List Int → Int
  | [] => 0
  | t :: ts => ts.foldl min t

/-- Maximum of a timestamp list (`MAX(timestamp)`). -/
def maxTs : List Int → Int
  | [] => 0
  | t :: ts => ts.foldl max t

/-- A row used when a group unexpectedly has no member (never reached). -/
def defaultRow : LogRow := ⟨0, "", "", "", "", ""⟩

/-- The `sample_message` correlated subquery of `get_groups`: first row
of the **unfiltered** table with this group id (`LIMIT 1` without
`ORDER BY`: storage order), `or ""` when NULL. -/
def sampleMessageOf (db : List LogRow) (g : String) : String :=
  match db.find? fun r => r.group_id = g with
  | some r => r.message
  | none => ""

/-- Aggregate record of one group over the filtered rows (`level`,
`service`, `fingerprint` are bare columns under `GROUP BY`: SQLite picks
them from an arbitrary member row — modelled as the first one). -/
def mkGroupItem (db rows : List LogRow) (g : String) : GroupItem :=
  let grp := rows.filter fun r => r.group_id = g
  let rep := grp.headD defaultRow
  { group_id := g
    fingerprint := rep.fingerprint
    count := grp.length
    level := rep.level
    service := rep.service
    sample_message := sampleMessageOf db g
    first_seen := minTs (grp.map (·.timestamp))
    last_seen := maxTs (grp.map (·.timestamp)) }

/-- `get_groups` from `app/group.py`: aggregate the filtered rows per
group id, order by descending member count, truncate to `limit`. -/
def get_groups (db : List LogRow) (svc lvl : Option String) (limit : Nat)
    (since : Option Int) : List GroupItem :=
  let rows := db.filter (rowMatches svc lvl since)
  let gids := (rows.map (·.group_id)).dedup
  (sortDescBy (fun gi => (gi.count : ℚ)) (gids.map (mkGroupItem db rows))).take limit

/-- `SpikeItem` from `app/schema.py`. -/
structure SpikeItem where
  group_id : String
  service : String
  level : String
  window_start : Int
  count : Nat
  baseline_avg : ℚ
  ratio : ℚ
deriving Repr, DecidableEq

/-- `round(x, 2)` (two-decimal rounding; tie-breaking at half a
hundredth is immaterial to every statement below). -/
def round2 (q : ℚ) : ℚ := ((round (q * 100) : ℤ) : ℚ) / 100

/-- Start of the current window: `now - timedelta(minutes=w)` (instants
in epoch seconds). -/
def curStartOf (now : Int) (w : Nat) : Int := now - 60 * w

/-- Start of the baseline period:
`cur_start - timedelta(minutes=w * max(bw, 1))`. -/
def baseStartOf (now : Int) (w bw : Nat) : Int :=
  curStartOf now w - 60 * (w * max bw 1)

/-- The rows of the current window: `timestamp >= cur_start` (plus
filters) — the SQL puts **no upper bound** on the current window. -/
def curRows (db : List LogRow) (svc lvl : Option String) (curStart : Int) : List LogRow :=
  db.filter fun r => svcLvlMatch svc lvl r && curStart ≤ r.timestamp

/-- Current-window count of one group. -/
def curCount (db : List LogRow) (svc lvl : Option String) (curStart : Int)
    (g : String) : Nat :=
  ((curRows db svc lvl curStart).filter fun r => r.group_id = g).length

/-- Baseline count of one group:
`timestamp >= base_start AND timestamp < cur_start` (plus filters). -/
def baseCount (db : List LogRow) (svc lvl : Option String) (baseStart curStart : Int)
    (g : String) : Nat :=
  ((db.filter fun r => svcLvlMatch svc lvl r &&
    (baseStart ≤ r.timestamp && r.timestamp < curStart)).filter
      fun r => r.group_id = g).length

/-- `CAST(COUNT(*) AS REAL) / max(baseline_windows, 1)`. -/
def baselineAvg (db : List LogRow) (svc lvl : Option String) (baseStart curStart : Int)
    (bw : Nat) (g : String) : ℚ :=
  (baseCount db svc lvl baseStart curStart g : ℚ) / ((max bw 1 : Nat) : ℚ)

/-- The spike row built for one reported group (`service`/`level` are
bare columns under `GROUP BY`, modelled as the first current-window
member; the `ELSE 999.0` ratio branch is dead under the
`base.avg_cnt > 0` filter). -/
def mkSpikeItem (db : List LogRow) (svc lvl : Option String) (now : Int) (w bw : Nat)
    (g : String) : SpikeItem :=
  let cs := curStartOf now w
  let bs := baseStartOf now w bw
  let rep := ((curRows db svc lvl cs).find? fun r => r.group_id = g).getD defaultRow
  { group_id := g
    service := rep.service
    level := rep.level
    window_start := cs
    count := curCount db svc lvl cs g
    baseline_avg := baselineAvg db svc lvl bs cs bw g
    ratio := round2 ((curCount db svc lvl cs g : ℚ) / baselineAvg db svc lvl bs cs bw g) }

/-- `get_spikes` from `app/spikes.py`: groups with at least one
current-window row whose baseline average is positive and whose current
count reaches `ratio_threshold` times the baseline average, ordered by
descending (unrounded) ratio. -/
def get_spikes (db : List LogRow) (now : Int) (w : Nat) (T : ℚ) (bw : Nat)
    (svc lvl : Option String) : List SpikeItem :=
  let cs := curStartOf now w
  let bs := baseStartOf now w bw
  let gids := ((curRows db svc lvl cs).map (·.group_id)).dedup
  let keep : String → Bool := fun g =>
    decide (0 < baselineAvg db svc lvl bs cs bw g) &&
    decide (T * baselineAvg db svc lvl bs cs bw g ≤ (curCount db svc lvl cs g : ℚ))
  let sorted := sortDescBy
    (fun g => (curCount db svc lvl cs g : ℚ) / baselineAvg db svc lvl bs cs bw g)
    (gids.filter keep)
  sorted.map (mkSpikeItem db svc lvl now w bw)

/-! ### Auxiliary definitions used by the statements below -/

/-- Does the (optional) timestamp value stay inside the range
`datetime.utcfromtimestamp` accepts?  Only numeric values can fall
outside (string-parse failures are swallowed by `_coerce_timestamp`). -/
def tsSafe : Option Value → Bool
  | some (.vInt n) => utcfromtimestampOk (epochSecondsOfNum n)
  | _ => true

/-- Is an optional field value absent, `None`, or blank after `str` +
`strip` coercion?  (The cases in which the normalizer's defaults kick
in.) -/
def absentOrBlank : Option Value → Bool
  | none => true
  | some .vNone => true
  | some v => stripPy (pyStr v) = ""

/-- Sample raw event with one non-alias key, used to instantiate the
metadata statement. -/
def metaSampleRaw : RawEvent := [("payload_id", Value.vInt 7)]

/-- The canonical log `normalize` produces for `metaSampleRaw` at
ingestion instant 0. -/
def metaSampleCanonical : CanonicalLog :=
  { timestamp := 0, level := "INFO", message := "(no message)", service := "unknown",
    correlation_id := "", metadata := [("payload_id", Value.vInt 7)],
    raw := pyReprDict [("payload_id", Value.vInt 7)] }

/-- A 50001-byte ASCII message (strictly above the size ceiling). -/
def bigMessage : String := ⟨List.replicate 50001 'a'⟩

/-- A canonical log violating both the level whitelist and the size
ceiling. -/
def oversizedLog : CanonicalLog := ⟨0, "TRACE", bigMessage, "svc", "", [], ""⟩

/-! ### Helper lemmas -/

theorem mem_insertDescBy {α : Type} (key : α → ℚ) (x : α) (l : List α) (a : α) :
    a ∈ insertDescBy key x l ↔ a = x ∨ a ∈ l := by
  induction l with
  | nil => simp [insertDescBy]
  | cons y ys ih =>
    simp only [insertDescBy]
    split
    · simp
    · simp only [List.mem_cons, ih]
      tauto

theorem mem_sortDescBy {α : Type} (key : α → ℚ) (l : List α) (a : α) :
    a ∈ sortDescBy key l ↔ a ∈ l := by
  induction l with
  | nil => simp [sortDescBy]
  | cons x xs ih => simp [sortDescBy, mem_insertDescBy, ih]

theorem pairwise_insertDescBy {α : Type} (key : α → ℚ) (x : α) (l : List α)
    (h : l.Pairwise fun a b => key b ≤ key a) :
    (insertDescBy key x l).Pairwise fun a b => key b ≤ key a := by
  induction l with
  | nil => simp [insertDescBy]
  | cons y ys ih =>
    rcases List.pairwise_cons.mp h with ⟨hy, hys⟩
    simp only [insertDescBy]
    split
    · next hlt =>
      refine List.pairwise_cons.mpr ⟨?_, h⟩
      intro b hb
      rcases List.mem_cons.mp hb with rfl | hb
      · exact le_of_lt hlt
      · exact le_trans (hy b hb) (le_of_lt hlt)
    · next hnlt =>
      refine List.pairwise_cons.mpr ⟨?_, ih hys⟩
      intro b hb
      rcases (mem_insertDescBy key x ys b).mp hb with rfl | hb
      · exact not_lt.mp hnlt
      · exact hy b hb

theorem pairwise_sortDescBy {α : Type} (key : α → ℚ) (l : List α) :
    (sortDescBy key l).Pairwise fun a b => key b ≤ key a := by
  induction l with
  | nil => simp [sortDescBy]
  | cons x xs ih => exact pairwise_insertDescBy key x _ ih

theorem length_filter_pos_iff {α : Type} (p : α → Bool) (l : List α) :
    0 < (l.filter p).length ↔ ∃ a ∈ l, p a := by
  constructor
  · intro h
    match hm : l.filter p with
    | [] => rw [hm] at h; simp at h
    | b :: bs =>
      have hb : b ∈ l.filter p := by rw [hm]; exact List.mem_cons_self _ _
      rcases List.mem_filter.mp hb with ⟨h1, h2⟩
      exact ⟨b, h1, h2⟩
  · rintro ⟨a, ha, hpa⟩
    exact List.length_pos.mpr (List.ne_nil_of_mem (List.mem_filter.mpr ⟨ha, hpa⟩))

theorem foldl_min_le_init (l : List Int) (a : Int) : l.foldl min a ≤ a := by
  induction l generalizing a with
  | nil => simp
  | cons t ts ih => exact le_trans (ih (min a t)) (min_le_left a t)

theorem foldl_min_le_mem (l : List Int) (a x : Int) (hx : x ∈ l) : l.foldl min a ≤ x := by
  induction l generalizing a with
  | nil => simp at hx
  | cons t ts ih =>
    rcases List.mem_cons.mp hx with rfl | hx
    · exact le_trans (foldl_min_le_init ts (min a x)) (min_le_right a x)
    · exact ih (min a t) hx

theorem foldl_min_mem (l : List Int) (a : Int) : l.foldl min a = a ∨ l.foldl min a ∈ l := by
  induction l generalizing a with
  | nil => simp
  | cons t ts ih =>
    rcases ih (min a t) with h | h
    · rcases min_choice a t with hc | hc
      · left; rw [List.foldl_cons, h, hc]
      · right; rw [List.foldl_cons, h, hc]; exact List.mem_cons_self _ _
    · right; exact List.mem_cons_of_mem _ h

theorem minTs_mem (t : Int) (ts : List Int) : minTs (t :: ts) ∈ t :: ts := by
  rcases foldl_min_mem ts t with h | h
  · rw [minTs, h]; exact List.mem_cons_self _ _
  · exact List.mem_cons_of_mem _ h

theorem minTs_le (t : Int) (ts : List Int) (x : Int) (hx : x ∈ t :: ts) :
    minTs (t :: ts) ≤ x := by
  rcases List.mem_cons.mp hx with rfl | hx
  · exact foldl_min_le_init ts x
  · exact foldl_min_le_mem ts t x hx

theorem foldl_max_ge_init (l : List Int) (a : Int) : a ≤ l.foldl max a := by
  induction l generalizing a with
  | nil => simp
  | cons t ts ih => exact le_trans (le_max_left a t) (ih (max a t))

theorem foldl_max_ge_mem (l : List Int) (a x : Int) (hx : x ∈ l) : x ≤ l.foldl max a := by
  induction l generalizing a with
  | nil => simp at hx
  | cons t ts ih =>
    rcases List.mem_cons.mp hx with rfl | hx
    · exact le_trans (le_max_right a x) (foldl_max_ge_init ts (max a x))
    · exact ih (max a t) hx

theorem foldl_max_mem (l : List Int) (a : Int) : l.foldl max a = a ∨ l.foldl max a ∈ l := by
  induction l generalizing a with
  | nil => simp
  | cons t ts ih =>
    rcases ih (max a t) with h | h
    · rcases max_choice a t with hc | hc
      · left; rw [List.foldl_cons, h, hc]
      · right; rw [List.foldl_cons, h, hc]; exact List.mem_cons_self _ _
    · right; exact List.mem_cons_of_mem _ h

theorem maxTs_mem (t : Int) (ts : List Int) : maxTs (t :: ts) ∈ t :: ts := by
  rcases foldl_max_mem ts t with h | h
  · rw [maxTs, h]; exact List.mem_cons_self _ _
  · exact List.mem_cons_of_mem _ h

theorem maxTs_ge (t : Int) (ts : List Int) (x : Int) (hx : x ∈ t :: ts) :
    x ≤ maxTs (t :: ts) := by
  rcases List.mem_cons.mp hx with rfl | hx
  · exact foldl_max_ge_init ts x
  · exact foldl_max_ge_mem ts t x hx

theorem round2_mono {a b : ℚ} (h : a ≤ b) : round2 a ≤ round2 b := by
  unfold round2
  have hr : round (a * 100) ≤ round (b * 100) := by
    rw [round_eq, round_eq]
    exact Int.floor_le_floor (by linarith)
  have hq : ((round (a * 100) : ℤ) : ℚ) ≤ ((round (b * 100) : ℤ) : ℚ) := by exact_mod_cast hr
  gcongr

theorem div_pos_iff_of_pos {a b : ℚ} (hb : 0 < b) : 0 < a / b ↔ 0 < a := by
  constructor
  · intro h
    by_contra hn
    push_neg at hn
    have : a / b ≤ 0 := div_nonpos_of_nonpos_of_nonneg hn (le_of_lt hb)
    linarith
  · intro ha
    exact div_pos ha hb

/-! ### C3 — fingerprint determinism and number templating -/

/-- C3: `compute_fingerprint` is a pure function of
`(service, level, message)`: entries with equal service, equal level and
messages equal after templating (UUIDs, `0x…` hex literals and
standalone integers replaced by placeholders, colon-whitespace collapsed,
trimmed) get the same fingerprint; in particular
`"Cache miss for key 17"` and `"Cache miss for key 94210"` template
identically and fingerprint identically for a fixed service and level. -/
theorem fingerprint_deterministic_and_templated :
    (∀ e₁ e₂ : CanonicalLog, e₁.service = e₂.service → e₁.level = e₂.level →
      normalizeMessageForFingerprint e₁.message = normalizeMessageForFingerprint e₂.message →
      compute_fingerprint e₁ = compute_fingerprint e₂) ∧
    normalizeMessageForFingerprint "Cache miss for key 17" =
      normalizeMessageForFingerprint "Cache miss for key 94210" ∧
    compute_fingerprint ⟨0, "INFO", "Cache miss for key 17", "cache", "", [], ""⟩ =
      compute_fingerprint ⟨0, "INFO", "Cache miss for key 94210", "cache", "", [], ""⟩ := by
  refine ⟨?_, by decide, by decide⟩
  intro e₁ e₂ hs hl hm
  unfold compute_fingerprint
  rw [hs, hl, hm]

/-- Witness for C3 at concrete entries. -/
theorem fingerprint_deterministic_and_templated_witness :
    compute_fingerprint ⟨0, "ERROR", "disk 17 full", "store", "", [], ""⟩ =
      compute_fingerprint ⟨0, "ERROR", "disk 94210 full", "store", "", [], ""⟩ :=
  fingerprint_deterministic_and_templated.1 _ _ rfl rfl (by decide)

/-! ### C7 — fingerprints across services/levels -/

theorem barFree_split {x₁ x₂ r₁ r₂ : List Char}
    (h : x₁ ++ '|' :: r₁ = x₂ ++ '|' :: r₂)
    (h₁ : '|' ∉ x₁) (h₂ : '|' ∉ x₂) : x₁ = x₂ ∧ r₁ = r₂ := by
  induction x₁ generalizing x₂ with
  | nil =>
    cases x₂ with
    | nil => simpa using h
    | cons b bs =>
      simp only [List.nil_append, List.cons_append, List.cons.injEq] at h
      exact absurd (h.1 ▸ List.mem_cons_self b bs) h₂
  | cons a as ih =>
    cases x₂ with
    | nil =>
      simp only [List.nil_append, List.cons_append, List.cons.injEq] at h
      exact absurd (h.1 ▸ List.mem_cons_self a as) h₁
    | cons b bs =>
      simp only [List.cons_append, List.cons.injEq] at h
      obtain ⟨hab, hrest⟩ := h
      subst hab
      have hih := ih hrest (fun hm => h₁ (List.mem_cons_of_mem _ hm))
        (fun hm => h₂ (List.mem_cons_of_mem _ hm))
      exact ⟨by rw [hih.1], hih.2⟩

theorem joinBar_two_data (s l : String) :
    (joinBar [s, l]).data = s.data ++ '|' :: l.data := by
  show (s ++ "|" ++ l).data = _
  rw [show (s ++ "|" ++ l).data = (s.data ++ ['|']) ++ l.data from rfl,
    List.append_assoc, List.singleton_append]

theorem joinBar_three_data (s l t : String) :
    (joinBar [s, l, t]).data = s.data ++ '|' :: (l.data ++ '|' :: t.data) := by
  show (s ++ "|" ++ (l ++ "|" ++ t)).data = _
  rw [show (s ++ "|" ++ (l ++ "|" ++ t)).data
      = (s.data ++ ['|']) ++ ((l.data ++ ['|']) ++ t.data) from rfl,
    List.append_assoc, List.singleton_append, List.append_assoc, List.singleton_append]

/-- C7 (amended): for entries with identical message text whose services
and levels are nonempty and free of the join separator `|`, differing
service or level forces differing fingerprints (stated as the
contrapositive: equal fingerprints force equal service and level). -/
theorem fingerprint_separates_services_levels (e₁ e₂ : CanonicalLog)
    (hm : e₁.message = e₂.message)
    (hs₁ : e₁.service ≠ "") (hl₁ : e₁.level ≠ "")
    (hs₂ : e₂.service ≠ "") (hl₂ : e₂.level ≠ "")
    (hbs₁ : '|' ∉ e₁.service.data) (hbl₁ : '|' ∉ e₁.level.data)
    (hbs₂ : '|' ∉ e₂.service.data) (hbl₂ : '|' ∉ e₂.level.data)
    (hfp : compute_fingerprint e₁ = compute_fingerprint e₂) :
    e₁.service = e₂.service ∧ e₁.level = e₂.level := by
  unfold compute_fingerprint at hfp
  rw [hm] at hfp
  by_cases ht : normalizeMessageForFingerprint e₂.message = ""
  · rw [ht] at hfp
    have hfilter : ∀ (s l : String), s ≠ "" → l ≠ "" →
        ([s, l, ""].filter fun p => p ≠ "") = [s, l] := by
      intro s l hs hl
      simp [List.filter, hs, hl]
    rw [hfilter _ _ hs₁ hl₁, hfilter _ _ hs₂ hl₂] at hfp
    have hdata := congrArg String.data hfp
    rw [joinBar_two_data, joinBar_two_data] at hdata
    have hsplit := barFree_split hdata hbs₁ hbs₂
    exact ⟨String.ext hsplit.1, String.ext hsplit.2⟩
  · have hfilter : ∀ (s l : String), s ≠ "" → l ≠ "" →
        ([s, l, normalizeMessageForFingerprint e₂.message].filter fun p => p ≠ "")
          = [s, l, normalizeMessageForFingerprint e₂.message] := by
      intro s l hs hl
      simp [List.filter, hs, hl, ht]
    rw [hfilter _ _ hs₁ hl₁, hfilter _ _ hs₂ hl₂] at hfp
    have hdata := congrArg String.data hfp
    rw [joinBar_three_data, joinBar_three_data] at hdata
    have hsplit := barFree_split hdata hbs₁ hbs₂
    have hsplit2 := barFree_split hsplit.2 hbl₁ hbl₂
    exact ⟨String.ext hsplit.1, String.ext hsplit2.1⟩

/-- Witness for C7's amended statement at a concrete pair. -/
theorem fingerprint_separates_services_levels_witness :
    (⟨0, "ERROR", "x", "api", "", [], ""⟩ : CanonicalLog).service
      = (⟨0, "ERROR", "x", "api", "", [], ""⟩ : CanonicalLog).service ∧
    (⟨0, "ERROR", "x", "api", "", [], ""⟩ : CanonicalLog).level
      = (⟨0, "ERROR", "x", "api", "", [], ""⟩ : CanonicalLog).level :=
  fingerprint_separates_services_levels _ _ rfl (by decide) (by decide) (by decide)
    (by decide) (by decide) (by decide) (by decide) (by decide) rfl

/-- C7 counterexample: two entries with identical message text and
different services (one containing `|`) share a fingerprint, because the
join omits empty parts and does not escape the separator. -/
theorem fingerprint_collision_counterexample :
    compute_fingerprint ⟨0, "c", "hi", "a|b", "", [], ""⟩ =
      compute_fingerprint ⟨0, "b|c", "hi", "a", "", [], ""⟩ ∧
    (⟨0, "c", "hi", "a|b", "", [], ""⟩ : CanonicalLog).service
      ≠ (⟨0, "b|c", "hi", "a", "", [], ""⟩ : CanonicalLog).service ∧
    (⟨0, "c", "hi", "a|b", "", [], ""⟩ : CanonicalLog).message
      = (⟨0, "b|c", "hi", "a", "", [], ""⟩ : CanonicalLog).message := by
  refine ⟨by decide, by decide, rfl⟩

/-! ### C2 — totality of `normalize` -/

theorem coerce_timestamp_total (now : ℚ) (o : Option Value) (h : tsSafe o = true) :
    ∃ t, coerce_timestamp now o = .ok t := by
  rcases o with _ | v
  · exact ⟨now, rfl⟩
  · rcases v with s | n | _
    · cases hp : parsePyIso (s.replace "Z" "+00:00") with
      | some t => exact ⟨t, by simp [coerce_timestamp, hp]⟩
      | none =>
        cases hf : parsePyFloat s with
        | none => exact ⟨now, by simp [coerce_timestamp, hp, hf]⟩
        | some x =>
          by_cases hr : utcfromtimestampOk x
          · exact ⟨x, by simp [coerce_timestamp, hp, hf, hr]⟩
          · exact ⟨now, by simp [coerce_timestamp, hp, hf, hr]⟩
    · have h' : utcfromtimestampOk (epochSecondsOfNum n) = true := h
      exact ⟨epochSecondsOfNum n, by simp [coerce_timestamp, h']⟩
    · exact ⟨now, rfl⟩

theorem coerce_level_default (o : Option Value) (h : absentOrBlank o = true) :
    coerce_level o = "INFO" := by
  have hu : toUpperPy "" = "" := by decide
  rcases o with _ | v
  · rfl
  · rcases v with s | n | _
    · have h' : stripPy (pyStr (Value.vStr s)) = "" := by simpa [absentOrBlank] using h
      simp [coerce_level, h', hu]
    · have h' : stripPy (pyStr (Value.vInt n)) = "" := by simpa [absentOrBlank] using h
      simp [coerce_level, h', hu]
    · rfl

theorem coerce_string_default (o : Option Value) (h : absentOrBlank o = true) :
    coerce_string o = "" := by
  rcases o with _ | v
  · rfl
  · rcases v with s | n | _
    · simpa [absentOrBlank, coerce_string] using h
    · simpa [absentOrBlank, coerce_string] using h
    · rfl

/-- C2 (amended): `normalize` returns a canonical log with the
documented defaults for every raw event whose timestamp value, when
numeric, yields an epoch instant inside `datetime`'s representable
range after the milliseconds adjustment — for numeric timestamps
outside that range the numeric branch of `_coerce_timestamp` raises
(see the counterexample), so totality holds only under this guard. -/
theorem normalize_total_with_defaults (now : ℚ) (raw : RawEvent)
    (h : tsSafe (find_value raw TIMESTAMP_ALIASES) = true) :
    ∃ c : CanonicalLog, normalize now raw = .ok c ∧
      (absentOrBlank (find_value raw LEVEL_ALIASES) = true → c.level = "INFO") ∧
      (absentOrBlank (find_value raw MESSAGE_ALIASES) = true → c.message = "(no message)") ∧
      (absentOrBlank (find_value raw SERVICE_ALIASES) = true → c.service = "unknown") ∧
      (absentOrBlank (find_value raw CORRELATION_ALIASES) = true → c.correlation_id = "") := by
  obtain ⟨t, ht⟩ := coerce_timestamp_total now _ h
  have hn : normalize now raw = .ok
      { timestamp := t
        level := coerce_level (find_value raw LEVEL_ALIASES)
        message := orDefault (coerce_string (find_value raw MESSAGE_ALIASES)) "(no message)"
        service := orDefault (coerce_string (find_value raw SERVICE_ALIASES)) "unknown"
        correlation_id := orDefault (coerce_string (find_value raw CORRELATION_ALIASES)) ""
        metadata := metadataOf raw
        raw := if raw.isEmpty then "" else pyReprDict raw } := by
    simp only [normalize, ht]
  refine ⟨_, hn, ?_, ?_, ?_, ?_⟩
  · intro hab
    exact coerce_level_default _ hab
  · intro hab
    show orDefault (coerce_string (find_value raw MESSAGE_ALIASES)) "(no message)" = _
    simp [coerce_string_default _ hab, orDefault]
  · intro hab
    show orDefault (coerce_string (find_value raw SERVICE_ALIASES)) "unknown" = _
    simp [coerce_string_default _ hab, orDefault]
  · intro hab
    show orDefault (coerce_string (find_value raw CORRELATION_ALIASES)) "" = _
    simp [coerce_string_default _ hab, orDefault]

/-- Witness for C2's amended statement on a concrete event. -/
theorem normalize_total_with_defaults_witness :
    tsSafe (find_value [("user", Value.vStr "u1")] TIMESTAMP_ALIASES) = true ∧
    (∃ c : CanonicalLog, normalize 0 [("user", Value.vStr "u1")] = .ok c ∧
      (absentOrBlank (find_value [("user", Value.vStr "u1")] LEVEL_ALIASES) = true →
        c.level = "INFO") ∧
      (absentOrBlank (find_value [("user", Value.vStr "u1")] MESSAGE_ALIASES) = true →
        c.message = "(no message)") ∧
      (absentOrBlank (find_value [("user", Value.vStr "u1")] SERVICE_ALIASES) = true →
        c.service = "unknown") ∧
      (absentOrBlank (find_value [("user", Value.vStr "u1")] CORRELATION_ALIASES) = true →
        c.correlation_id = "")) :=
  ⟨rfl, normalize_total_with_defaults 0 [("user", Value.vStr "u1")] rfl⟩

/-- C2 counterexample: a numeric timestamp of large magnitude
(`5 * 10^11`, taken as epoch seconds because it is below the `1e12`
milliseconds threshold, yet far beyond year 9999) makes
`datetime.utcfromtimestamp` — and hence `normalize` — raise. -/
theorem normalize_raises_counterexample :
    normalize 0 [("timestamp", Value.vInt 500000000000)] = Except.error "year out of range" := by
  rfl

/-! ### C8 — metadata collection -/

/-- C8 (amended): the metadata of a normalized event holds exactly the
input pairs whose key matches no alias case-insensitively **and whose
value is not `None`** (the `normalize` loop drops `None`-valued keys),
with original keys and values. -/
theorem normalize_metadata_amended (now : ℚ) (raw : RawEvent) (c : CanonicalLog)
    (h : normalize now raw = .ok c) :
    ∀ k v, (k, v) ∈ c.metadata ↔ ((k, v) ∈ raw ∧ isAliasKey k = false ∧ v ≠ Value.vNone) := by
  have hc : c.metadata = metadataOf raw := by
    unfold normalize at h
    cases ht : coerce_timestamp now (find_value raw TIMESTAMP_ALIASES) with
    | error e => rw [ht] at h; cases h
    | ok t => rw [ht] at h; cases h; rfl
  intro k v
  rw [hc]
  unfold metadataOf
  rw [List.mem_filter]
  simp only [Bool.and_eq_true, Bool.not_eq_true', beq_eq_false_iff_ne, ne_eq]

/-- Witness for C8's amended statement on a concrete event. -/
theorem normalize_metadata_amended_witness :
    normalize 0 metaSampleRaw = .ok metaSampleCanonical ∧
    (∀ k v, (k, v) ∈ metaSampleCanonical.metadata ↔
      ((k, v) ∈ metaSampleRaw ∧ isAliasKey k = false ∧ v ≠ Value.vNone)) :=
  ⟨by rfl, normalize_metadata_amended 0 metaSampleRaw metaSampleCanonical (by rfl)⟩

/-- C8 counterexample: the key `"foo"` matches no alias, yet its
`None` value keeps it out of the metadata — the claim would require
`metadata = [("foo", None)]`. -/
theorem normalize_metadata_counterexample :
    Except.map CanonicalLog.metadata (normalize 0 [("foo", Value.vNone)]) = Except.ok [] ∧
    isAliasKey "foo" = false := by
  exact ⟨by rfl, by rfl⟩

/-! ### C4 — validator acceptance rule -/

/-- C4 (amended): a canonical log is rejected exactly when its level is
outside the whitelist, its payload exceeds the byte ceiling, **or its
message is empty** (an empty-message rule the claim omitted); when both
the level and the size rule are violated, the error list starts with the
level error followed by the size error (the checks accumulate). -/
theorem validate_canonical_amended (c : CanonicalLog) :
    ((validate_log (.canonical c)).1 = false ↔
      (c.level ∉ allowed_levels ∨ max_log_size_bytes < canonicalPayloadSize c ∨
        c.message = "")) ∧
    (c.level ∉ allowed_levels → max_log_size_bytes < canonicalPayloadSize c →
      (validate_log (.canonical c)).2.take 2 =
        [invalidLevelError c.level, payloadTooLargeError (canonicalPayloadSize c)]) := by
  constructor
  · by_cases h1 : c.level ∈ allowed_levels <;>
      by_cases h2 : max_log_size_bytes < canonicalPayloadSize c <;>
      by_cases h3 : c.message = "" <;>
      simp [validate_log, h1, h2, h3]
  · intro h1 h2
    by_cases h3 : c.message = "" <;> simp [validate_log, h1, h2, h3]

/-- C4 counterexample: an empty-message canonical log with a whitelisted
level and a tiny payload is nevertheless rejected — the claim's
"valid = True for every other CanonicalLog" fails here. -/
theorem validate_canonical_counterexample :
    (validate_log (.canonical ⟨0, "INFO", "", "svc", "", [], ""⟩)).1 = false ∧
    (⟨0, "INFO", "", "svc", "", [], ""⟩ : CanonicalLog).level ∈ allowed_levels ∧
    canonicalPayloadSize ⟨0, "INFO", "", "svc", "", [], ""⟩ ≤ max_log_size_bytes := by
  refine ⟨by decide, by decide, by decide⟩

theorem utf8Len_bigMessage : utf8Len bigMessage = 50001 := by
  unfold utf8Len bigMessage
  rw [show (String.mk (List.replicate 50001 'a')).toList = List.replicate 50001 'a' from rfl,
    List.map_replicate, show charUtf8Size 'a' = 1 from rfl, List.sum_replicate,
    smul_eq_mul, Nat.mul_one]

theorem canonicalPayloadSize_eq (c : CanonicalLog) :
    canonicalPayloadSize c = utf8Len c.raw + utf8Len c.message := rfl

theorem canonicalPayloadSize_oversized : canonicalPayloadSize oversizedLog = 50001 := by
  rw [canonicalPayloadSize_eq, show oversizedLog.raw = "" from rfl,
    show oversizedLog.message = bigMessage from rfl, utf8Len_bigMessage,
    show utf8Len "" = 0 from by decide]

/-- Witness for C4's amended statement at a log breaking both rules. -/
theorem validate_canonical_amended_witness :
    oversizedLog.level ∉ allowed_levels ∧
    max_log_size_bytes < canonicalPayloadSize oversizedLog ∧
    (validate_log (.canonical oversizedLog)).2.take 2 =
      [invalidLevelError oversizedLog.level,
        payloadTooLargeError (canonicalPayloadSize oversizedLog)] := by
  have hlev : oversizedLog.level ∉ allowed_levels := by decide
  have hsz : max_log_size_bytes < canonicalPayloadSize oversizedLog := by
    rw [canonicalPayloadSize_oversized]
    decide
  exact ⟨hlev, hsz, (validate_canonical_amended oversizedLog).2 hlev hsz⟩

/-! ### C10 — the empty-message rule and the dict branch -/

/-- C10: a canonical log with empty message is rejected with
"Message is required" whatever its level and size, while the dict branch
of `validate_log` never applies the empty-message rule: a dict with an
empty or missing message passes when its level and payload size are
acceptable. -/
theorem validate_empty_message_rule :
    (∀ c : CanonicalLog, c.message = "" →
      (validate_log (.canonical c)).1 = false ∧
      "Message is required" ∈ (validate_log (.canonical c)).2) ∧
    (∀ d : RawEvent, dictMessage d = "" → dictLevel d ∈ allowed_levels →
      jsonDumpsSize d ≤ max_log_size_bytes → validate_log (.dict d) = (true, [])) := by
  constructor
  · intro c h3
    by_cases h1 : c.level ∈ allowed_levels <;>
      by_cases h2 : max_log_size_bytes < canonicalPayloadSize c <;>
      simp [validate_log, h1, h2, h3]
  · intro d _ h1 h2
    simp [validate_log, h1, not_lt.mpr h2]

/-- Witness for C10 at a concrete canonical log and a concrete dict. -/
theorem validate_empty_message_rule_witness :
    ((validate_log (.canonical ⟨0, "INFO", "", "svc", "", [], ""⟩)).1 = false ∧
      "Message is required" ∈ (validate_log (.canonical ⟨0, "INFO", "", "svc", "", [], ""⟩)).2) ∧
    validate_log (.dict [("level", Value.vStr "info")]) = (true, []) :=
  ⟨validate_empty_message_rule.1 ⟨0, "INFO", "", "svc", "", [], ""⟩ rfl,
    validate_empty_message_rule.2 [("level", Value.vStr "info")] (by decide) (by decide)
      (by decide)⟩

/-! ### C5 — batch accounting in `process_logs` -/

theorem step_reject (i n : Nat) (msg : String) (r : Nat × Nat × List (Nat × String))
    (h1 : r.1 + r.2.1 = n)
    (h2 : r.2.2.length = r.2.1)
    (h3 : ∀ e ∈ r.2.2, i + 1 ≤ e.1 ∧ e.1 < i + 1 + n)
    (h4 : (r.2.2.map Prod.fst).Pairwise (· < ·)) :
    (r.1 + (r.2.1 + 1) = n + 1) ∧
    (((i, msg) :: r.2.2).length = r.2.1 + 1) ∧
    (∀ e ∈ (i, msg) :: r.2.2, i ≤ e.1 ∧ e.1 < i + (n + 1)) ∧
    ((((i, msg) :: r.2.2).map Prod.fst).Pairwise (· < ·)) := by
  refine ⟨by omega, by simp [h2], ?_, ?_⟩
  · intro e he
    rcases List.mem_cons.mp he with rfl | he
    · exact ⟨le_refl i, by omega⟩
    · have := h3 e he
      exact ⟨by omega, by omega⟩
  · rw [List.map_cons]
    refine List.pairwise_cons.mpr ⟨?_, h4⟩
    intro b hb
    rcases List.mem_map.mp hb with ⟨e, he, rfl⟩
    have := h3 e he
    omega

theorem step_accept (i n : Nat) (r : Nat × Nat × List (Nat × String))
    (h1 : r.1 + r.2.1 = n)
    (h2 : r.2.2.length = r.2.1)
    (h3 : ∀ e ∈ r.2.2, i + 1 ≤ e.1 ∧ e.1 < i + 1 + n)
    (h4 : (r.2.2.map Prod.fst).Pairwise (· < ·)) :
    ((r.1 + 1) + r.2.1 = n + 1) ∧
    (r.2.2.length = r.2.1) ∧
    (∀ e ∈ r.2.2, i ≤ e.1 ∧ e.1 < i + (n + 1)) ∧
    ((r.2.2.map Prod.fst).Pairwise (· < ·)) := by
  refine ⟨by omega, h2, ?_, h4⟩
  intro e he
  have := h3 e he
  exact ⟨by omega, by omega⟩

theorem processAux_spec (now : ℚ) (storeFail : Nat → Option String) :
    ∀ (l : List BatchItem) (i a : Nat),
      (processAux now storeFail i a l).1 + (processAux now storeFail i a l).2.1 = l.length ∧
      (processAux now storeFail i a l).2.2.length = (processAux now storeFail i a l).2.1 ∧
      (∀ e ∈ (processAux now storeFail i a l).2.2, i ≤ e.1 ∧ e.1 < i + l.length) ∧
      ((processAux now storeFail i a l).2.2.map Prod.fst).Pairwise (· < ·) := by
  intro l
  induction l with
  | nil =>
    intro i a
    simp [processAux]
  | cons item rest ih =>
    intro i a
    cases item with
    | notObj =>
      have h := ih (i + 1) a
      simpa only [processAux, List.length_cons] using
        step_reject i rest.length NOT_OBJECT_ERROR _ h.1 h.2.1 h.2.2.1 h.2.2.2
    | obj raw =>
      cases hn : normalize now raw with
      | error e =>
        have h := ih (i + 1) a
        simpa only [processAux, hn, List.length_cons] using
          step_reject i rest.length ("Normalization failed: " ++ e) _ h.1 h.2.1 h.2.2.1 h.2.2.2
      | ok c =>
        cases hv : (validate_log (.canonical c)).1 with
        | false =>
          have h := ih (i + 1) a
          simpa only [processAux, hn, hv, Bool.false_eq_true, if_false, List.length_cons] using
            step_reject i rest.length
              (String.intercalate "; " (validate_log (.canonical c)).2) _
              h.1 h.2.1 h.2.2.1 h.2.2.2
        | true =>
          cases hs : storeFail a with
          | none =>
            have h := ih (i + 1) (a + 1)
            simpa only [processAux, hn, hv, hs, if_true, List.length_cons] using
              step_accept i rest.length _ h.1 h.2.1 h.2.2.1 h.2.2.2
          | some e2 =>
            have h := ih (i + 1) (a + 1)
            simpa only [processAux, hn, hv, hs, if_true, List.length_cons] using
              step_reject i rest.length ("Storage failed: " ++ e2) _ h.1 h.2.1 h.2.2.1 h.2.2.2

/-- C5: every batch item is accepted or rejected exactly once
(`accepted + rejected = length`), `errors` carries exactly one record
per rejected item with strictly increasing, in-range zero-based batch
indices, and the lifetime rejection counter grows by exactly `rejected`
— including batches whose rejections come from storage failures after
earlier commits (the `storeFail` oracle). -/
theorem process_logs_accounting (now : ℚ) (storeFail : Nat → Option String)
    (batch : List BatchItem) (counter : Nat) :
    (process_logs now storeFail batch).1 + (process_logs now storeFail batch).2.1
        = batch.length ∧
    (process_logs now storeFail batch).2.2.length
        = (process_logs now storeFail batch).2.1 ∧
    (∀ e ∈ (process_logs now storeFail batch).2.2, e.1 < batch.length) ∧
    ((process_logs now storeFail batch).2.2.map Prod.fst).Pairwise (· < ·) ∧
    rejectedCounterAfter counter now storeFail batch
        = counter + (process_logs now storeFail batch).2.1 := by
  have h := processAux_spec now storeFail batch 0 0
  refine ⟨h.1, h.2.1, ?_, h.2.2.2, ?_⟩
  · intro e he
    have := h.2.2.1 e he
    omega
  · show (if 0 < (process_logs now storeFail batch).2.1
      then counter + (process_logs now storeFail batch).2.1 else counter) = _
    split
    · rfl
    · next h0 => omega

/-- Witness for C5 at a concrete batch (one accepted item, one
non-object, one validation failure) with an always-succeeding store. -/
theorem process_logs_accounting_witness :
    (process_logs 0 (fun _ => none) [.obj [("msg", Value.vStr "hi")], .notObj,
        .obj [("level", Value.vStr "INVALID"), ("message", Value.vStr "")]]).1 +
      (process_logs 0 (fun _ => none) [.obj [("msg", Value.vStr "hi")], .notObj,
        .obj [("level", Value.vStr "INVALID"), ("message", Value.vStr "")]]).2.1
      = ([.obj [("msg", Value.vStr "hi")], .notObj,
        .obj [("level", Value.vStr "INVALID"), ("message", Value.vStr "")]] :
          List BatchItem).length ∧
    (process_logs 0 (fun _ => none) [.obj [("msg", Value.vStr "hi")], .notObj,
        .obj [("level", Value.vStr "INVALID"), ("message", Value.vStr "")]]).2.2.length
      = (process_logs 0 (fun _ => none) [.obj [("msg", Value.vStr "hi")], .notObj,
        .obj [("level", Value.vStr "INVALID"), ("message", Value.vStr "")]]).2.1 ∧
    (∀ e ∈ (process_logs 0 (fun _ => none) [.obj [("msg", Value.vStr "hi")], .notObj,
        .obj [("level", Value.vStr "INVALID"), ("message", Value.vStr "")]]).2.2,
      e.1 < ([.obj [("msg", Value.vStr "hi")], .notObj,
        .obj [("level", Value.vStr "INVALID"), ("message", Value.vStr "")]] :
          List BatchItem).length) ∧
    ((process_logs 0 (fun _ => none) [.obj [("msg", Value.vStr "hi")], .notObj,
        .obj [("level", Value.vStr "INVALID"), ("message", Value.vStr "")]]).2.2.map
        Prod.fst).Pairwise (· < ·) ∧
    rejectedCounterAfter 10 0 (fun _ => none) [.obj [("msg", Value.vStr "hi")], .notObj,
        .obj [("level", Value.vStr "INVALID"), ("message", Value.vStr "")]]
      = 10 + (process_logs 0 (fun _ => none) [.obj [("msg", Value.vStr "hi")], .notObj,
        .obj [("level", Value.vStr "INVALID"), ("message", Value.vStr "")]]).2.1 :=
  process_logs_accounting 0 (fun _ => none) [.obj [("msg", Value.vStr "hi")], .notObj,
    .obj [("level", Value.vStr "INVALID"), ("message", Value.vStr "")]] 10

/-! ### C9 — group aggregation -/

/-- C9: `get_groups` returns at most `limit` groups; each returned
group's count is the number of filter-matching rows carrying its group
id, its `first_seen` / `last_seen` are the least / greatest timestamps
attained among those rows; the list is sorted by non-increasing count,
and re-running against an unchanged store yields the identical result. -/
theorem get_groups_spec (db : List LogRow) (svc lvl : Option String) (limit : Nat)
    (since : Option Int) :
    (get_groups db svc lvl limit since).length ≤ limit ∧
    (∀ gi ∈ get_groups db svc lvl limit since,
      gi.count = ((db.filter (rowMatches svc lvl since)).filter
          fun r => r.group_id = gi.group_id).length ∧
      (∃ r ∈ (db.filter (rowMatches svc lvl since)).filter
          (fun r => r.group_id = gi.group_id), r.timestamp = gi.first_seen) ∧
      (∀ r ∈ (db.filter (rowMatches svc lvl since)).filter
          (fun r => r.group_id = gi.group_id), gi.first_seen ≤ r.timestamp) ∧
      (∃ r ∈ (db.filter (rowMatches svc lvl since)).filter
          (fun r => r.group_id = gi.group_id), r.timestamp = gi.last_seen) ∧
      (∀ r ∈ (db.filter (rowMatches svc lvl since)).filter
          (fun r => r.group_id = gi.group_id), r.timestamp ≤ gi.last_seen)) ∧
    (get_groups db svc lvl limit since).Pairwise (fun a b => b.count ≤ a.count) ∧
    get_groups db svc lvl limit since = get_groups db svc lvl limit since := by
  have hgg : get_groups db svc lvl limit since =
      (sortDescBy (fun gi : GroupItem => (gi.count : ℚ))
        (((db.filter (rowMatches svc lvl since)).map (·.group_id)).dedup.map
          (mkGroupItem db (db.filter (rowMatches svc lvl since))))).take limit := rfl
  refine ⟨?_, ?_, ?_, rfl⟩
  · rw [hgg]
    exact List.length_take_le _ _
  · intro gi hgi
    rw [hgg] at hgi
    have hgi' := (mem_sortDescBy _ _ _).mp (List.take_subset _ _ hgi)
    rcases List.mem_map.mp hgi' with ⟨g, hg, rfl⟩
    obtain ⟨r0, hr0, hr0g⟩ :
        ∃ r ∈ db.filter (rowMatches svc lvl since), r.group_id = g := by
      rcases List.mem_map.mp (List.mem_dedup.mp hg) with ⟨r, hr, hrg⟩
      exact ⟨r, hr, hrg⟩
    have hr0' : r0 ∈ (db.filter (rowMatches svc lvl since)).filter
        (fun r => r.group_id = g) := List.mem_filter.mpr ⟨hr0, by simp [hr0g]⟩
    show (mkGroupItem db (db.filter (rowMatches svc lvl since)) g).count
        = ((db.filter (rowMatches svc lvl since)).filter fun r => r.group_id = g).length ∧
      (∃ r ∈ (db.filter (rowMatches svc lvl since)).filter (fun r => r.group_id = g),
        r.timestamp = minTs (((db.filter (rowMatches svc lvl since)).filter
          (fun r => r.group_id = g)).map (·.timestamp))) ∧
      (∀ r ∈ (db.filter (rowMatches svc lvl since)).filter (fun r => r.group_id = g),
        minTs (((db.filter (rowMatches svc lvl since)).filter
          (fun r => r.group_id = g)).map (·.timestamp)) ≤ r.timestamp) ∧
      (∃ r ∈ (db.filter (rowMatches svc lvl since)).filter (fun r => r.group_id = g),
        r.timestamp = maxTs (((db.filter (rowMatches svc lvl since)).filter
          (fun r => r.group_id = g)).map (·.timestamp))) ∧
      (∀ r ∈ (db.filter (rowMatches svc lvl since)).filter (fun r => r.group_id = g),
        r.timestamp ≤ maxTs (((db.filter (rowMatches svc lvl since)).filter
          (fun r => r.group_id = g)).map (·.timestamp)))
    rcases hgrp : (db.filter (rowMatches svc lvl since)).filter (fun r => r.group_id = g)
      with _ | ⟨t, ts⟩
    · rw [hgrp] at hr0'
      cases hr0'
    · refine ⟨rfl, ?_, ?_, ?_, ?_⟩
      · rw [hgrp, List.map_cons]
        have hm := minTs_mem t.timestamp (ts.map (·.timestamp))
        rw [show t.timestamp :: ts.map (·.timestamp) = (t :: ts).map (·.timestamp)
          from rfl] at hm
        rcases List.mem_map.mp hm with ⟨r, hr, hrt⟩
        exact ⟨r, hr, hrt⟩
      · intro r hr
        rw [hgrp] at hr
        rw [hgrp, List.map_cons]
        exact minTs_le _ _ _ (by
          rw [show t.timestamp :: ts.map (·.timestamp) = (t :: ts).map (·.timestamp) from rfl]
          exact List.mem_map_of_mem _ hr)
      · rw [hgrp, List.map_cons]
        have hm := maxTs_mem t.timestamp (ts.map (·.timestamp))
        rw [show t.timestamp :: ts.map (·.timestamp) = (t :: ts).map (·.timestamp)
          from rfl] at hm
        rcases List.mem_map.mp hm with ⟨r, hr, hrt⟩
        exact ⟨r, hr, hrt⟩
      · intro r hr
        rw [hgrp] at hr
        rw [hgrp, List.map_cons]
        exact maxTs_ge _ _ _ (by
          rw [show t.timestamp :: ts.map (·.timestamp) = (t :: ts).map (·.timestamp) from rfl]
          exact List.mem_map_of_mem _ hr)
  · rw [hgg]
    have hp := pairwise_sortDescBy (fun gi : GroupItem => (gi.count : ℚ))
      (((db.filter (rowMatches svc lvl since)).map (·.group_id)).dedup.map
        (mkGroupItem db (db.filter (rowMatches svc lvl since))))
    have hp' := List.Pairwise.sublist (List.take_sublist limit _) hp
    exact hp'.imp fun h => by exact_mod_cast h

/-- Witness for C9 at a concrete two-row store. -/
theorem get_groups_spec_witness :
    (get_groups [⟨-30, "ERROR", "boom", "api", "g", "g"⟩,
        ⟨-100, "ERROR", "boom", "api", "g", "g"⟩] none none 50 none).length ≤ 50 ∧
    (∀ gi ∈ get_groups [⟨-30, "ERROR", "boom", "api", "g", "g"⟩,
        ⟨-100, "ERROR", "boom", "api", "g", "g"⟩] none none 50 none,
      gi.count = ((([⟨-30, "ERROR", "boom", "api", "g", "g"⟩,
          ⟨-100, "ERROR", "boom", "api", "g", "g"⟩] : List LogRow).filter
          (rowMatches none none none)).filter
          fun r => r.group_id = gi.group_id).length ∧
      (∃ r ∈ (([⟨-30, "ERROR", "boom", "api", "g", "g"⟩,
          ⟨-100, "ERROR", "boom", "api", "g", "g"⟩] : List LogRow).filter
          (rowMatches none none none)).filter
          (fun r => r.group_id = gi.group_id), r.timestamp = gi.first_seen) ∧
      (∀ r ∈ (([⟨-30, "ERROR", "boom", "api", "g", "g"⟩,
          ⟨-100, "ERROR", "boom", "api", "g", "g"⟩] : List LogRow).filter
          (rowMatches none none none)).filter
          (fun r => r.group_id = gi.group_id), gi.first_seen ≤ r.timestamp) ∧
      (∃ r ∈ (([⟨-30, "ERROR", "boom", "api", "g", "g"⟩,
          ⟨-100, "ERROR", "boom", "api", "g", "g"⟩] : List LogRow).filter
          (rowMatches none none none)).filter
          (fun r => r.group_id = gi.group_id), r.timestamp = gi.last_seen) ∧
      (∀ r ∈ (([⟨-30, "ERROR", "boom", "api", "g", "g"⟩,
          ⟨-100, "ERROR", "boom", "api", "g", "g"⟩] : List LogRow).filter
          (rowMatches none none none)).filter
          (fun r => r.group_id = gi.group_id), r.timestamp ≤ gi.last_seen)) ∧
    (get_groups [⟨-30, "ERROR", "boom", "api", "g", "g"⟩,
        ⟨-100, "ERROR", "boom", "api", "g", "g"⟩] none none 50 none).Pairwise
      (fun a b => b.count ≤ a.count) ∧
    get_groups [⟨-30, "ERROR", "boom", "api", "g", "g"⟩,
        ⟨-100, "ERROR", "boom", "api", "g", "g"⟩] none none 50 none
      = get_groups [⟨-30, "ERROR", "boom", "api", "g", "g"⟩,
        ⟨-100, "ERROR", "boom", "api", "g", "g"⟩] none none 50 none :=
  get_groups_spec [⟨-30, "ERROR", "boom", "api", "g", "g"⟩,
    ⟨-100, "ERROR", "boom", "api", "g", "g"⟩] none none 50 none

/-! ### C6 — window bounds of the spike detector -/

/-- C6 (amended): the current window of `get_spikes` has **no upper
bound** — it counts every matching entry with
`timestamp ≥ now - window_minutes`, future-dated entries included, while
the baseline window `[base_start, cur_start)` excludes them: adding a
matching entry with `timestamp ≥ now` raises its group's current-window
count by one and leaves every group's baseline count unchanged. -/
theorem spikes_future_entries_amended (db : List LogRow) (now : Int) (w bw : Nat)
    (svc lvl : Option String) (e : LogRow)
    (hf : now ≤ e.timestamp) (hm : svcLvlMatch svc lvl e = true) :
    curCount (e :: db) svc lvl (curStartOf now w) e.group_id
        = curCount db svc lvl (curStartOf now w) e.group_id + 1 ∧
    ∀ g, baseCount (e :: db) svc lvl (baseStartOf now w bw) (curStartOf now w) g
        = baseCount db svc lvl (baseStartOf now w bw) (curStartOf now w) g := by
  have hcs : curStartOf now w ≤ e.timestamp := by
    have h60 : (0 : Int) ≤ 60 * w := by positivity
    unfold curStartOf
    omega
  have hnb : ¬ (e.timestamp < curStartOf now w) := not_lt.mpr hcs
  constructor
  · unfold curCount curRows
    simp [List.filter_cons, hm, hcs]
  · intro g
    unfold baseCount
    simp [List.filter_cons, hm, hnb]

/-- Witness for C6's amended statement at a concrete future-dated row. -/
theorem spikes_future_entries_amended_witness :
    curCount [⟨160, "ERROR", "m", "svc", "g", "g"⟩] none none (curStartOf 100 1) "g"
        = curCount [] none none (curStartOf 100 1) "g" + 1 ∧
    ∀ g, baseCount [⟨160, "ERROR", "m", "svc", "g", "g"⟩] none none
        (baseStartOf 100 1 1) (curStartOf 100 1) g
      = baseCount [] none none (baseStartOf 100 1 1) (curStartOf 100 1) g :=
  spikes_future_entries_amended [] 100 1 1 none none ⟨160, "ERROR", "m", "svc", "g", "g"⟩
    (by decide) (by decide)

/-- C6 counterexample: with `now = 100` and `window_minutes = 1` the
claimed current window is `[40, 100)`; this store has no entry in that
interval (one future-dated entry at 160, one baseline entry at 0), yet
`get_spikes` reports the group with a current count of 1 — the
future-dated entry is counted in the current window. -/
theorem spikes_future_entries_counterexample :
    get_spikes [⟨160, "ERROR", "m", "svc", "g", "g"⟩, ⟨0, "ERROR", "m", "svc", "g", "g"⟩]
        100 1 1 1 none none
      = [⟨"g", "svc", "ERROR", 40, 1, 1, 1⟩] ∧
    ∀ r ∈ [⟨160, "ERROR", "m", "svc", "g", "g"⟩, (⟨0, "ERROR", "m", "svc", "g", "g"⟩ : LogRow)],
      ¬ (curStartOf 100 1 ≤ r.timestamp ∧ r.timestamp < 100) := by
  constructor
  · have h1 : baselineAvg [⟨160, "ERROR", "m", "svc", "g", "g"⟩,
        ⟨0, "ERROR", "m", "svc", "g", "g"⟩] none none (-20) 40 1 "g" = 1 := by
      norm_num [baselineAvg, baseCount, svcLvlMatch, filterActive, List.filter]
    have h3 : round2 (1 : ℚ) = 1 := by
      norm_num [round2, round_eq]
    norm_num [get_spikes, mkSpikeItem, sortDescBy, insertDescBy, h1, h3, curStartOf,
      baseStartOf, List.dedup, List.pwFilter, curRows, svcLvlMatch, filterActive, List.filter,
      curCount, List.find?]
  · decide

/-! ### C1 — the spike reporting rule -/

theorem mem_curGids_iff (db : List LogRow) (svc lvl : Option String) (cs : Int) (g : String) :
    g ∈ ((curRows db svc lvl cs).map (·.group_id)).dedup ↔
      0 < curCount db svc lvl cs g := by
  rw [List.mem_dedup]
  unfold curCount
  rw [length_filter_pos_iff]
  constructor
  · intro hg
    rcases List.mem_map.mp hg with ⟨r, hr, rfl⟩
    exact ⟨r, hr, by simp⟩
  · rintro ⟨r, hr, hrg⟩
    exact List.mem_map.mpr ⟨r, hr, by simpa using hrg⟩

/-- C1: for `baseline_windows ≥ 1`, `get_spikes` reports a group iff it
has a matching entry in the current window, its baseline average
(baseline count divided by `baseline_windows`) is strictly positive and
its current count is at least `ratio_threshold` times that average; each
report carries the current count, the baseline average, and the ratio
`count / baseline_avg` rounded to two decimals, and the list is sorted
by non-increasing ratio. -/
theorem get_spikes_spec (db : List LogRow) (now : Int) (w : Nat) (T : ℚ) (bw : Nat)
    (svc lvl : Option String) (hbw : 1 ≤ bw) :
    (∀ g : String, (∃ it ∈ get_spikes db now w T bw svc lvl, it.group_id = g) ↔
        (0 < curCount db svc lvl (curStartOf now w) g ∧
         0 < baseCount db svc lvl (baseStartOf now w bw) (curStartOf now w) g ∧
         T * ((baseCount db svc lvl (baseStartOf now w bw) (curStartOf now w) g : ℚ) / (bw : ℚ))
           ≤ (curCount db svc lvl (curStartOf now w) g : ℚ))) ∧
    (∀ it ∈ get_spikes db now w T bw svc lvl,
      it.count = curCount db svc lvl (curStartOf now w) it.group_id ∧
      it.baseline_avg = (baseCount db svc lvl (baseStartOf now w bw) (curStartOf now w)
        it.group_id : ℚ) / (bw : ℚ) ∧
      it.ratio = round2 ((curCount db svc lvl (curStartOf now w) it.group_id : ℚ) /
        ((baseCount db svc lvl (baseStartOf now w bw) (curStartOf now w) it.group_id : ℚ)
          / (bw : ℚ)))) ∧
    (get_spikes db now w T bw svc lvl).Pairwise (fun a b => b.ratio ≤ a.ratio) := by
  have hbw0 : (0 : ℚ) < (bw : ℚ) := by
    exact_mod_cast Nat.lt_of_lt_of_le Nat.zero_lt_one hbw
  have hmaxQ : ((max bw 1 : Nat) : ℚ) = (bw : ℚ) := by
    rw [Nat.max_eq_left hbw]
  have havg : ∀ g, baselineAvg db svc lvl (baseStartOf now w bw) (curStartOf now w) bw g
      = (baseCount db svc lvl (baseStartOf now w bw) (curStartOf now w) g : ℚ) / (bw : ℚ) := by
    intro g
    unfold baselineAvg
    rw [hmaxQ]
  have hgs : get_spikes db now w T bw svc lvl
      = (sortDescBy (fun g => (curCount db svc lvl (curStartOf now w) g : ℚ) /
          baselineAvg db svc lvl (baseStartOf now w bw) (curStartOf now w) bw g)
        ((((curRows db svc lvl (curStartOf now w)).map (·.group_id)).dedup).filter fun g =>
          decide (0 < baselineAvg db svc lvl (baseStartOf now w bw) (curStartOf now w) bw g) &&
          decide (T * baselineAvg db svc lvl (baseStartOf now w bw) (curStartOf now w) bw g
            ≤ (curCount db svc lvl (curStartOf now w) g : ℚ)))).map
        (mkSpikeItem db svc lvl now w bw) := rfl
  refine ⟨?_, ?_, ?_⟩
  · intro g
    rw [hgs]
    constructor
    · rintro ⟨it, hit, hgid⟩
      rcases List.mem_map.mp hit with ⟨g', hg', rfl⟩
      have hg : g' = g := hgid
      subst hg
      have hg'' := (mem_sortDescBy _ _ _).mp hg'
      rcases List.mem_filter.mp hg'' with ⟨hmem, hkeep⟩
      rw [Bool.and_eq_true, decide_eq_true_eq, decide_eq_true_eq] at hkeep
      obtain ⟨hk1, hk2⟩ := hkeep
      rw [havg] at hk1 hk2
      refine ⟨(mem_curGids_iff db svc lvl _ _).mp hmem, ?_, hk2⟩
      have := (div_pos_iff_of_pos hbw0).mp hk1
      exact_mod_cast this
    · rintro ⟨h1, h2, h3⟩
      refine ⟨mkSpikeItem db svc lvl now w bw g, ?_, rfl⟩
      apply List.mem_map_of_mem
      rw [mem_sortDescBy, List.mem_filter]
      refine ⟨(mem_curGids_iff db svc lvl _ _).mpr h1, ?_⟩
      rw [Bool.and_eq_true, decide_eq_true_eq, decide_eq_true_eq, havg]
      exact ⟨(div_pos_iff_of_pos hbw0).mpr (by exact_mod_cast h2), h3⟩
  · intro it hit
    rw [hgs] at hit
    rcases List.mem_map.mp hit with ⟨g', hg', rfl⟩
    refine ⟨rfl, ?_, ?_⟩
    · show baselineAvg db svc lvl (baseStartOf now w bw) (curStartOf now w) bw g'
        = (baseCount db svc lvl (baseStartOf now w bw) (curStartOf now w) g' : ℚ) / (bw : ℚ)
      rw [havg]
    · show round2 ((curCount db svc lvl (curStartOf now w) g' : ℚ) /
          baselineAvg db svc lvl (baseStartOf now w bw) (curStartOf now w) bw g')
        = round2 ((curCount db svc lvl (curStartOf now w) g' : ℚ) /
          ((baseCount db svc lvl (baseStartOf now w bw) (curStartOf now w) g' : ℚ) / (bw : ℚ)))
      rw [havg]
  · rw [hgs, List.pairwise_map]
    have hp := pairwise_sortDescBy (fun g => (curCount db svc lvl (curStartOf now w) g : ℚ) /
        baselineAvg db svc lvl (baseStartOf now w bw) (curStartOf now w) bw g)
      ((((curRows db svc lvl (curStartOf now w)).map (·.group_id)).dedup).filter fun g =>
        decide (0 < baselineAvg db svc lvl (baseStartOf now w bw) (curStartOf now w) bw g) &&
        decide (T * baselineAvg db svc lvl (baseStartOf now w bw) (curStartOf now w) bw g
          ≤ (curCount db svc lvl (curStartOf now w) g : ℚ)))
    exact hp.imp fun h => round2_mono h

/-- Witness for C1 at a concrete store (one current-window entry at
`-30`, one baseline entry at `-100`, `now = 0`, one-minute window,
threshold 1, one baseline window). -/
theorem get_spikes_spec_witness :
    (1 ≤ 1) ∧
    ((∀ g : String, (∃ it ∈ get_spikes [⟨-30, "ERROR", "boom", "api", "g", "g"⟩,
          ⟨-100, "ERROR", "boom", "api", "g", "g"⟩] 0 1 1 1 none none, it.group_id = g) ↔
        (0 < curCount [⟨-30, "ERROR", "boom", "api", "g", "g"⟩,
            ⟨-100, "ERROR", "boom", "api", "g", "g"⟩] none none (curStartOf 0 1) g ∧
         0 < baseCount [⟨-30, "ERROR", "boom", "api", "g", "g"⟩,
            ⟨-100, "ERROR", "boom", "api", "g", "g"⟩] none none (baseStartOf 0 1 1)
            (curStartOf 0 1) g ∧
         1 * ((baseCount [⟨-30, "ERROR", "boom", "api", "g", "g"⟩,
            ⟨-100, "ERROR", "boom", "api", "g", "g"⟩] none none (baseStartOf 0 1 1)
            (curStartOf 0 1) g : ℚ) / ((1 : Nat) : ℚ))
           ≤ (curCount [⟨-30, "ERROR", "boom", "api", "g", "g"⟩,
            ⟨-100, "ERROR", "boom", "api", "g", "g"⟩] none none (curStartOf 0 1) g : ℚ))) ∧
    (∀ it ∈ get_spikes [⟨-30, "ERROR", "boom", "api", "g", "g"⟩,
        ⟨-100, "ERROR", "boom", "api", "g", "g"⟩] 0 1 1 1 none none,
      it.count = curCount [⟨-30, "ERROR", "boom", "api", "g", "g"⟩,
        ⟨-100, "ERROR", "boom", "api", "g", "g"⟩] none none (curStartOf 0 1) it.group_id ∧
      it.baseline_avg = (baseCount [⟨-30, "ERROR", "boom", "api", "g", "g"⟩,
        ⟨-100, "ERROR", "boom", "api", "g", "g"⟩] none none (baseStartOf 0 1 1) (curStartOf 0 1)
        it.group_id : ℚ) / ((1 : Nat) : ℚ) ∧
      it.ratio = round2 ((curCount [⟨-30, "ERROR", "boom", "api", "g", "g"⟩,
        ⟨-100, "ERROR", "boom", "api", "g", "g"⟩] none none (curStartOf 0 1) it.group_id : ℚ) /
        ((baseCount [⟨-30, "ERROR", "boom", "api", "g", "g"⟩,
          ⟨-100, "ERROR", "boom", "api", "g", "g"⟩] none none (baseStartOf 0 1 1)
          (curStartOf 0 1) it.group_id : ℚ) / ((1 : Nat) : ℚ)))) ∧
    (get_spikes [⟨-30, "ERROR", "boom", "api", "g", "g"⟩,
        ⟨-100, "ERROR", "boom", "api", "g", "g"⟩] 0 1 1 1 none none).Pairwise
      (fun a b => b.ratio ≤ a.ratio)) :=
  ⟨by decide,
    get_spikes_spec [⟨-30, "ERROR", "boom", "api", "g", "g"⟩,
      ⟨-100, "ERROR", "boom", "api", "g", "g"⟩] 0 1 1 1 none none (by decide)⟩

end LogInvestigation
